import Mathlib

/-!
Verification of the input-normalization fallback chain and the interactive
loop of the repl module (src/slu/slu/dev/repl.py).

Python strings are modelled as lists of characters, Python/JSON values as the
inductive type Value, and raised exceptions as the error side of Except PyErr.
The external collaborators (the transcript normalizer, the two decoders
json.loads and ast.literal_eval, the prompt source, and the prediction
pipeline) are opaque in the source and are taken as function parameters here.
-/

/-- Exceptions that can arise in the modelled code paths.  KeyError carries
the missing dictionary key; otherError stands for any further exception type
an external collaborator may raise. -/
inductive PyErr where
  | jsonDecodeError
  | valueError
  | synError
  | keyError (k : List Char)
  | keyboardInterrupt
  | eofError
  | otherError (m : List Char)
deriving DecidableEq

/-- Exception classes caught by the handlers of parse_as
(except json.JSONDecodeError / except ValueError / except SyntaxError).
KeyError and every other class is not among them. -/
def caughtByParseAs : PyErr → Bool
  | PyErr.jsonDecodeError => true
  | PyErr.valueError => true
  | PyErr.synError => true
  | _ => false

/-- Values produced by the decoders (json.loads returns null/bool/number/
string/array/object; ast.literal_eval additionally returns None and the other
Python literal shapes), and values flowing through the chain. -/
inductive Value where
  | pynone
  | pybool (b : Bool)
  | pyint (n : Int)
  | pystr (s : List Char)
  | pylist (xs : List Value)
  | pydict (kvs : List (Value × Value))

/-- Python truthiness of a Value, as tested by the statement
if not utterance in repl: None, False, 0, the empty string, the empty list
and the empty dict are falsy, everything else truthy. -/
def pyTruthy : Value → Bool
  | Value.pynone => false
  | Value.pybool b => b
  | Value.pyint n => n != 0
  | Value.pystr s => !s.isEmpty
  | Value.pylist xs => !xs.isEmpty
  | Value.pydict kvs => !kvs.isEmpty

/-- Dictionary subscript content[k] for a string key k: first entry whose key
is the string k, if any.  A missing key raises KeyError at the call site. -/
def lookupStr : List (Value × Value) → List Char → Option Value
  | [], _ => Option.none
  | (Value.pystr s, v) :: rest, k => if s = k then Option.some v else lookupStr rest k
  | _ :: rest, k => lookupStr rest k

/-- Modelled from the spec: the constant const.ALTERNATIVES of the module
slu.constants, which is not part of the sources; the spec names the key as
"alternatives". -/
def ALTERNATIVES : List Char := "alternatives".data

/-- Modelled from the spec: the constant const.CONTEXT of the module
slu.constants, which is not part of the sources; the spec names the key as
"context". -/
def CONTEXT : List Char := "context".data

/-- Embedding of parse_as (repl.py lines 55-80).  The decoder func and the
external normalize are parameters.  On a dict the code evaluates
normalize(content[ALTERNATIVES]) and content[CONTEXT]; a missing key raises
KeyError, which none of the three except clauses catches.  On a list the
whole value is normalized and the context is the empty dict.  On any other
shape, and on a caught decode error, the fallthrough pair (None, empty dict)
is returned. -/
def parse_as (normalize : Value → Value) (decode : List Char → Except PyErr Value)
    (text : List Char) : Except PyErr (Value × Value) :=
  match decode text with
  | Except.error e =>
      if caughtByParseAs e then Except.ok (Value.pynone, Value.pydict [])
      else Except.error e
  | Except.ok content =>
    match content with
    | Value.pydict kvs =>
      match lookupStr kvs ALTERNATIVES with
      | Option.none => Except.error (PyErr.keyError ALTERNATIVES)
      | Option.some alts =>
        match lookupStr kvs CONTEXT with
        | Option.none => Except.error (PyErr.keyError CONTEXT)
        | Option.some ctx => Except.ok (normalize alts, ctx)
    | Value.pylist _ => Except.ok (normalize content, Value.pydict [])
    | _ => Except.ok (Value.pynone, Value.pydict [])

/-- Character class [a-zA-Z0-9] of the first regular expression in
make_alts_from_text, expressed on code points. -/
def isAsciiAlnum (c : Char) : Bool :=
  (65 <= c.toNat && c.toNat <= 90) || (97 <= c.toNat && c.toNat <= 122) ||
    (48 <= c.toNat && c.toNat <= 57)

/-- Character class [a-zA-Z0-9 ] kept by the substitution
re.sub of pattern [^a-zA-Z0-9 ]+ in make_alts_from_text. -/
def keptByClassSub (c : Char) : Bool := isAsciiAlnum c || c.toNat = 32

/-- Whitespace as matched by the pattern backslash-s of re and stripped by
str.strip: tab through carriage return, the separator controls 28-31, space,
next line 133, no-break space 160, and the Unicode whitespace code points
5760 (ogham space mark), 8192-8202 (en quad through hair space), 8232 and
8233 (line and paragraph separator), 8239 (narrow no-break space), 8287
(medium mathematical space) and 12288 (ideographic space). -/
def isPySpace (c : Char) : Bool :=
  (9 <= c.toNat && c.toNat <= 13) || c.toNat = 32 ||
    (28 <= c.toNat && c.toNat <= 31) || c.toNat = 133 || c.toNat = 160 ||
    c.toNat = 5760 || (8192 <= c.toNat && c.toNat <= 8202) ||
    c.toNat = 8232 || c.toNat = 8233 || c.toNat = 8239 || c.toNat = 8287 ||
    c.toNat = 12288

/-- ASCII lowering of one character, the action of str.lower.  In the
normalization pipeline lower is applied after the class substitution, whose
output is pure ASCII, so the ASCII case mapping is the whole behaviour. -/
def pyLowerChar (c : Char) : Char :=
  if 65 <= c.toNat && c.toNat <= 90 then Char.ofNat (c.toNat + 32) else c

/-- Replacement of every maximal run of characters satisfying p by one space,
the action of re.sub with a one-or-more character-class pattern and a single
space as replacement.  The flag records whether the previous character was
part of a run. -/
def squashAux (p : Char → Bool) : Bool → List Char → List Char
  | _, [] => []
  | inRun, c :: cs =>
    if p c then
      if inRun then squashAux p true cs else ' ' :: squashAux p true cs
    else c :: squashAux p false cs

/-- Substitution re.sub of a run pattern over p by a single space. -/
def squash (p : Char → Bool) (l : List Char) : List Char := squashAux p false l

/-- Removal of trailing whitespace, the right half of str.strip. -/
def stripEnd (l : List Char) : List Char := (l.reverse.dropWhile isPySpace).reverse

/-- Embedding of str.strip: drop leading and trailing whitespace. -/
def pyStrip (l : List Char) : List Char := stripEnd (l.dropWhile isPySpace)

/-- Embedding of the normalization expression of make_alts_from_text
(repl.py line 51): substitute runs outside [a-zA-Z0-9 ] by a space,
substitute whitespace runs by a space, lowercase, strip. -/
def pyNormalizeText (l : List Char) : List Char :=
  pyStrip ((squash isPySpace (squash (fun c => !keptByClassSub c) l)).map pyLowerChar)

/-- Membership test of the operator "|" in text on line 44 of repl.py. -/
def containsBar : List Char → Bool
  | [] => false
  | c :: cs => c = '|' || containsBar cs

/-- Number of bar characters in a string; used to state how many parts
str.split produces. -/
def countBar : List Char → Nat
  | [] => 0
  | c :: cs => (if c = '|' then 1 else 0) + countBar cs

/-- Embedding of str.split with a one-character separator: every occurrence
of the separator splits, empty parts are kept, the empty string yields one
empty part. -/
def pySplit (sep : Char) : List Char → List (List Char)
  | [] => [[]]
  | c :: cs =>
    if c = sep then [] :: pySplit sep cs
    else
      match pySplit sep cs with
      | [] => [[c]]
      | p :: ps => (c :: p) :: ps

/-- Embedding of make_alts_from_text (repl.py lines 26-52).  When the text
contains a bar, the tuple assignment of the two names text_ and context from
the result of splitting on the bar raises ValueError whenever the split has
any number of parts other than two; the right part is stripped and becomes
the context label.  The utterance text is then normalized and wrapped in a
one-element list. -/
def make_alts_from_text (text : List Char) : Except PyErr (Value × Value) :=
  if containsBar text then
    match pySplit '|' text with
    | [t, c] =>
        Except.ok (Value.pylist [Value.pystr (pyNormalizeText t)], Value.pystr (pyStrip c))
    | _ => Except.error PyErr.valueError
  else
    Except.ok (Value.pylist [Value.pystr (pyNormalizeText text)], Value.pynone)

/-- Embedding of the fallback chain of the loop body (repl.py lines 134-138):
try parse_as with json.loads, on a falsy utterance try parse_as with
ast.literal_eval, on a falsy utterance fall back to make_alts_from_text. -/
def parseChain (normalize : Value → Value) (dj dl : List Char → Except PyErr Value)
    (raw : List Char) : Except PyErr (Value × Value) :=
  match parse_as normalize dj raw with
  | Except.error e => Except.error e
  | Except.ok (u1, c1) =>
    if pyTruthy u1 then Except.ok (u1, c1)
    else
      match parse_as normalize dl raw with
      | Except.error e => Except.error e
      | Except.ok (u2, c2) =>
        if pyTruthy u2 then Except.ok (u2, c2)
        else make_alts_from_text raw


/-- Outcome of the repl session: the two handlers around the loop catch
KeyboardInterrupt and EOFError and log a final message (cleanExit); any other
exception propagates out of repl and terminates the process (crashed); with
finite fuel the iteration may also simply stop (ranOut). -/
inductive ReplOutcome where
  | cleanExit
  | crashed (e : PyErr)
  | ranOut
deriving DecidableEq

/-- Embedding of the body of the while loop of repl (repl.py lines 126-153),
iterated with explicit fuel.  prompts k models the k-th call of the prompt
(either read input or an exception raised while blocked in the prompt); api
models PREDICT_API.  A raw input equal to the sentinel "--help" triggers one
immediate re-prompt whose result is used without a second sentinel check.
The returned list records, in order, the (utterance, context) pair of every
PREDICT_API invocation, including one that raises. -/
def replIter (normalize : Value → Value) (dj dl : List Char → Except PyErr Value)
    (prompts : Nat → Except PyErr (List Char))
    (api : Value → Value → Except PyErr Value) :
    Nat → Nat → List (Value × Value) × Except PyErr Unit
  | _, 0 => ([], Except.ok ())
  | k, fuel + 1 =>
    match prompts k with
    | Except.error e => ([], Except.error e)
    | Except.ok raw0 =>
      match (if raw0 = "--help".data then (prompts (k + 1), k + 2)
             else (Except.ok raw0, k + 1) :
               Except PyErr (List Char) × Nat) with
      | (Except.error e, _) => ([], Except.error e)
      | (Except.ok raw, next) =>
        match parseChain normalize dj dl raw with
        | Except.error e => ([], Except.error e)
        | Except.ok (u, c) =>
          match api u c with
          | Except.error e => ([(u, c)], Except.error e)
          | Except.ok _ =>
            match replIter normalize dj dl prompts api next fuel with
            | (tr, out) => ((u, c) :: tr, out)

/-- Embedding of repl (repl.py lines 118-158): the try block wraps the whole
while loop, so a KeyboardInterrupt or EOFError raised anywhere inside the
body is caught by the two except clauses and produces the clean exit, while
every other exception escapes repl. -/
def repl (normalize : Value → Value) (dj dl : List Char → Except PyErr Value)
    (prompts : Nat → Except PyErr (List Char))
    (api : Value → Value → Except PyErr Value) (fuel : Nat) :
    List (Value × Value) × ReplOutcome :=
  match replIter normalize dj dl prompts api 0 fuel with
  | (tr, Except.ok _) => (tr, ReplOutcome.ranOut)
  | (tr, Except.error PyErr.keyboardInterrupt) => (tr, ReplOutcome.cleanExit)
  | (tr, Except.error PyErr.eofError) => (tr, ReplOutcome.cleanExit)
  | (tr, Except.error e) => (tr, ReplOutcome.crashed e)


/-- Normalization as worded by the specification for the plain-text tier:
characters outside [a-zA-Z0-9 ] are removed (rather than replaced), then
whitespace runs are collapsed to one space, the result is lowercased and
stripped.  Stated only to be compared with pyNormalizeText, the behaviour of
the source. -/
def specNormalizeC3 (l : List Char) : List Char :=
  pyStrip ((squash isPySpace (l.filter keptByClassSub)).map pyLowerChar)

/-- Absence of two adjacent space characters in a list. -/
def noAdjSp : List Char → Prop
  | c :: d :: rest => ¬(c = ' ' ∧ d = ' ') ∧ noAdjSp (d :: rest)
  | _ => True

/-! Helper lemmas about characters. -/

theorem charToNat_inj {c d : Char} (h : c.toNat = d.toNat) : c = d :=
  Char.eq_of_val_eq (UInt32.toNat.inj h)

theorem toNat_ofNatAux (n : Nat) (h : n.isValidChar) : (Char.ofNatAux n h).toNat = n := rfl

theorem pyLowerChar_toNat (c : Char) :
    (pyLowerChar c).toNat = if 65 <= c.toNat && c.toNat <= 90 then c.toNat + 32 else c.toNat := by
  unfold pyLowerChar
  by_cases h : (65 <= c.toNat && c.toNat <= 90) = true
  · simp only [h, if_true]
    have hv : (c.toNat + 32).isValidChar := by
      apply Or.inl
      simp only [Bool.and_eq_true, decide_eq_true_eq] at h
      omega
    rw [Char.ofNat, dif_pos hv]
    exact toNat_ofNatAux _ _
  · simp only [Bool.not_eq_true] at h
    simp [h]

/-! Helper lemmas about pySplit, countBar and containsBar. -/

theorem pySplit_ne_nil (sep : Char) (l : List Char) : pySplit sep l ≠ [] := by
  induction l with
  | nil => simp [pySplit]
  | cons c cs ih =>
    unfold pySplit
    by_cases h : c = sep
    · simp [h]
    · simp only [h, if_false]
      cases hs : pySplit sep cs with
      | nil => simp
      | cons p ps => simp

theorem pySplit_length (l : List Char) :
    (pySplit '|' l).length = countBar l + 1 := by
  induction l with
  | nil => rfl
  | cons c cs ih =>
    unfold pySplit countBar
    by_cases h : c = '|'
    · simp [h, ih]
      omega
    · simp only [h, if_false]
      cases hs : pySplit '|' cs with
      | nil => exact absurd hs (pySplit_ne_nil '|' cs)
      | cons p ps =>
        rw [hs] at ih
        simp at ih ⊢
        omega

theorem containsBar_countBar (l : List Char) (h : containsBar l = true) :
    1 <= countBar l := by
  induction l with
  | nil => simp [containsBar] at h
  | cons c cs ih =>
    unfold containsBar at h
    unfold countBar
    by_cases hc : c = '|'
    · simp [hc]
    · simp only [hc, decide_eq_true_eq, Bool.false_or] at h
      have : containsBar cs = true := by
        cases hcb : containsBar cs
        · rw [hcb] at h
          simp [hc] at h
        · rfl
      have := ih this
      omega

theorem countBar_containsBar (l : List Char) (h : 1 <= countBar l) :
    containsBar l = true := by
  induction l with
  | nil => simp [countBar] at h
  | cons c cs ih =>
    unfold countBar at h
    unfold containsBar
    by_cases hc : c = '|'
    · simp [hc]
    · simp only [hc, if_false, Nat.zero_add] at h
      simp [hc, ih h]

/-- Totality of the plain-text tier on strings with at most one bar: with no
bar the else branch returns, with exactly one bar the split has exactly two
parts and the tuple assignment succeeds. -/
theorem make_alts_total (raw : List Char) (hbar : countBar raw <= 1) :
    ∃ u c, make_alts_from_text raw = Except.ok (u, c) := by
  cases hcb : containsBar raw with
  | false =>
    refine ⟨Value.pylist [Value.pystr (pyNormalizeText raw)], Value.pynone, ?_⟩
    unfold make_alts_from_text
    rw [hcb]
    rfl
  | true =>
    have h1 : countBar raw = 1 := by
      have := containsBar_countBar raw hcb
      omega
    have hlen : (pySplit '|' raw).length = 2 := by
      rw [pySplit_length, h1]
    match hsp : pySplit '|' raw with
    | [] => rw [hsp] at hlen; simp at hlen
    | [a] => rw [hsp] at hlen; simp at hlen
    | [a, b] =>
      refine ⟨Value.pylist [Value.pystr (pyNormalizeText a)], Value.pystr (pyStrip b), ?_⟩
      unfold make_alts_from_text
      rw [hcb, hsp]
      rfl
    | a :: b :: c :: rest => rw [hsp] at hlen; simp at hlen

/-- C6: the three tiers are attempted in the order json decoder, literal
decoder, plain text, and the first tier whose utterance is a non-empty list
fixes the result of the chain; a later tier is never consulted (the literal
decoder dl does not occur in the conclusion of the first part, and the
plain-text result is reached exactly when both structured tiers produced a
falsy utterance). -/
theorem c6_tier_order (n : Value → Value) (dj dl : List Char → Except PyErr Value)
    (raw : List Char) :
    (∀ xs c1, parse_as n dj raw = Except.ok (Value.pylist xs, c1) → xs ≠ [] →
        parseChain n dj dl raw = Except.ok (Value.pylist xs, c1)) ∧
    (∀ u1 c1 xs c2, parse_as n dj raw = Except.ok (u1, c1) → pyTruthy u1 = false →
        parse_as n dl raw = Except.ok (Value.pylist xs, c2) → xs ≠ [] →
        parseChain n dj dl raw = Except.ok (Value.pylist xs, c2)) ∧
    (∀ u1 c1 u2 c2, parse_as n dj raw = Except.ok (u1, c1) → pyTruthy u1 = false →
        parse_as n dl raw = Except.ok (u2, c2) → pyTruthy u2 = false →
        parseChain n dj dl raw = make_alts_from_text raw) := by
  refine ⟨?_, ?_, ?_⟩
  · intro xs c1 h1 hne
    unfold parseChain
    rw [h1]
    have : pyTruthy (Value.pylist xs) = true := by
      simp [pyTruthy, List.isEmpty_iff, hne]
    simp [this]
  · intro u1 c1 xs c2 h1 hf1 h2 hne
    unfold parseChain
    rw [h1]
    simp only [hf1, if_false]
    rw [h2]
    have : pyTruthy (Value.pylist xs) = true := by
      simp [pyTruthy, List.isEmpty_iff, hne]
    simp [this]
  · intro u1 c1 u2 c2 h1 hf1 h2 hf2
    unfold parseChain
    rw [h1]
    simp only [hf1, if_false]
    rw [h2]
    simp [hf2]

/-- Witness for c6_tier_order: a json tier returning a one-element list wins
and the chain returns it together with its context. -/
theorem c6_tier_order_witness :
    parseChain (fun v => v) (fun _ => Except.ok (Value.pylist [Value.pynone]))
      (fun _ => Except.error PyErr.valueError) "x".data =
      Except.ok (Value.pylist [Value.pynone], Value.pydict []) :=
  (c6_tier_order (fun v => v) (fun _ => Except.ok (Value.pylist [Value.pynone]))
    (fun _ => Except.error PyErr.valueError) "x".data).1 [Value.pynone] (Value.pydict [])
    rfl (by simp)

/-- C10: a decoded mapping holding both keys has its context value returned
exactly as stored, with no validation of its shape, while the alternatives
value goes through the external normalizer. -/
theorem c10_context_passthrough (n : Value → Value) (d : List Char → Except PyErr Value)
    (text : List Char) (kvs : List (Value × Value)) (a c : Value)
    (hd : d text = Except.ok (Value.pydict kvs))
    (ha : lookupStr kvs ALTERNATIVES = Option.some a)
    (hc : lookupStr kvs CONTEXT = Option.some c) :
    parse_as n d text = Except.ok (n a, c) := by
  simp only [parse_as, hd, ha, hc]

/-- Witness for c10_context_passthrough: a number under the context key is
passed through although it is not a mapping. -/
theorem c10_context_passthrough_witness :
    parse_as (fun v => v)
      (fun _ => Except.ok (Value.pydict
        [(Value.pystr ALTERNATIVES, Value.pylist [Value.pynone]),
         (Value.pystr CONTEXT, Value.pyint 7)])) [] =
      Except.ok (Value.pylist [Value.pynone], Value.pyint 7) :=
  c10_context_passthrough (fun v => v) _ []
    [(Value.pystr ALTERNATIVES, Value.pylist [Value.pynone]),
     (Value.pystr CONTEXT, Value.pyint 7)]
    (Value.pylist [Value.pynone]) (Value.pyint 7) rfl rfl rfl

/-- Counterexample to C2: a decode to the empty mapping, which lacks the
alternatives key, makes parse_as raise KeyError instead of returning the
fallthrough pair, because the except clauses of parse_as catch only
JSONDecodeError, ValueError and SyntaxError. -/
theorem c2_missing_key_counterexample :
    parse_as (fun v => v) (fun _ => Except.ok (Value.pydict [])) [] =
      Except.error (PyErr.keyError ALTERNATIVES) ∧
    Except.error (PyErr.keyError ALTERNATIVES) ≠
      (Except.ok (Value.pynone, Value.pydict []) : Except PyErr (Value × Value)) :=
  ⟨rfl, fun h => Except.noConfusion h⟩

/-- C2 as amended: a decode failure of one of the three caught classes and a
decoded value that is neither a mapping nor a sequence yield the fallthrough
pair (None, empty dict), but a decoded mapping missing the alternatives key,
or holding it while missing the context key, raises KeyError, which
propagates out of parse_as. -/
theorem c2_amended_fallthrough_and_keyerror (n : Value → Value)
    (d : List Char → Except PyErr Value) (text : List Char) :
    (∀ e, d text = Except.error e → caughtByParseAs e = true →
        parse_as n d text = Except.ok (Value.pynone, Value.pydict [])) ∧
    (∀ v, d text = Except.ok v → (∀ kvs, v ≠ Value.pydict kvs) →
        (∀ xs, v ≠ Value.pylist xs) →
        parse_as n d text = Except.ok (Value.pynone, Value.pydict [])) ∧
    (∀ kvs, d text = Except.ok (Value.pydict kvs) →
        lookupStr kvs ALTERNATIVES = Option.none →
        parse_as n d text = Except.error (PyErr.keyError ALTERNATIVES)) ∧
    (∀ kvs a, d text = Except.ok (Value.pydict kvs) →
        lookupStr kvs ALTERNATIVES = Option.some a →
        lookupStr kvs CONTEXT = Option.none →
        parse_as n d text = Except.error (PyErr.keyError CONTEXT)) := by
  refine ⟨?_, ?_, ?_, ?_⟩
  · intro e hd hc
    simp only [parse_as, hd, hc, if_true]
  · intro v hd hnd hnl
    simp only [parse_as, hd]
  · intro kvs hd ha
    simp only [parse_as, hd, ha]
  · intro kvs a hd ha hc
    simp only [parse_as, hd, ha, hc]

/-- Witness for c2_amended_fallthrough_and_keyerror: a caught decode failure
produces the fallthrough pair. -/
theorem c2_amended_witness :
    parse_as (fun v => v) (fun _ => Except.error PyErr.jsonDecodeError) "x".data =
      Except.ok (Value.pynone, Value.pydict []) :=
  (c2_amended_fallthrough_and_keyerror (fun v => v)
    (fun _ => Except.error PyErr.jsonDecodeError) "x".data).1
    PyErr.jsonDecodeError rfl rfl

/-- Counterexample to C4: on a string with two bars the split has three parts
and the tuple assignment in make_alts_from_text raises ValueError; the first
occurrence of the bar does not delimit utterance and context as the claim
states. -/
theorem c4_two_bars_counterexample :
    make_alts_from_text "a|b|c".data = Except.error PyErr.valueError ∧
    Except.error PyErr.valueError ≠
      (Except.ok (Value.pylist [Value.pystr "a".data], Value.pystr "b|c".data) :
        Except PyErr (Value × Value)) :=
  ⟨rfl, fun h => Except.noConfusion h⟩

/-- C4 as amended: when the split on the bar yields exactly two parts the
left part becomes the normalized utterance text and the stripped right part
the context label; when the string holds two or more bars the split has at
least three parts and make_alts_from_text raises ValueError. -/
theorem c4_amended_split_behaviour (raw : List Char) :
    (∀ l r, pySplit '|' raw = [l, r] →
        make_alts_from_text raw =
          Except.ok (Value.pylist [Value.pystr (pyNormalizeText l)],
            Value.pystr (pyStrip r))) ∧
    (3 <= (pySplit '|' raw).length →
        make_alts_from_text raw = Except.error PyErr.valueError) := by
  constructor
  · intro l r hsp
    have hcb : containsBar raw = true := by
      apply countBar_containsBar
      have := pySplit_length raw
      rw [hsp] at this
      simp at this
      omega
    unfold make_alts_from_text
    rw [hcb, hsp]
    rfl
  · intro hlen
    have hcb : containsBar raw = true := by
      apply countBar_containsBar
      have := pySplit_length raw
      omega
    match hsp : pySplit '|' raw with
    | [] => rw [hsp] at hlen; simp at hlen
    | [a] => rw [hsp] at hlen; simp at hlen
    | [a, b] => rw [hsp] at hlen; simp at hlen
    | a :: b :: c :: rest =>
      unfold make_alts_from_text
      rw [hcb, hsp]
      rfl

/-- Witness for c4_amended_split_behaviour: one bar splits into utterance and
context label, as in the example of the specification. -/
theorem c4_amended_witness :
    make_alts_from_text "I need fruit juice | COF1".data =
      Except.ok (Value.pylist [Value.pystr "i need fruit juice".data],
        Value.pystr "COF1".data) := by
  have h := (c4_amended_split_behaviour "I need fruit juice | COF1".data).1
    "I need fruit juice ".data " COF1".data rfl
  rw [h]
  rfl

/-- Counterexample to C1: with decoders that fail the way json.loads (a
JSONDecodeError) and ast.literal_eval (a SyntaxError) fail on the text with
two bars a||b, both structured tiers fall through and the plain-text tier
raises ValueError from the tuple assignment over a three-part split, so
parsing does not succeed on every string. -/
theorem c1_totality_counterexample :
    parseChain (fun v => v) (fun _ => Except.error PyErr.jsonDecodeError)
      (fun _ => Except.error PyErr.synError) "a||b".data =
      Except.error PyErr.valueError := rfl

/-- C1 as amended: whenever both structured tiers return (rather than raise
KeyError) and the raw string holds at most one bar, the chain returns an
(utterance, context) pair; the plain-text tier is total exactly on strings
with at most one bar. -/
theorem c1_amended_totality (n : Value → Value) (dj dl : List Char → Except PyErr Value)
    (raw : List Char) (r1 r2 : Value × Value)
    (h1 : parse_as n dj raw = Except.ok r1)
    (h2 : parse_as n dl raw = Except.ok r2)
    (hbar : countBar raw <= 1) :
    ∃ u c, parseChain n dj dl raw = Except.ok (u, c) := by
  obtain ⟨u1, c1⟩ := r1
  obtain ⟨u2, c2⟩ := r2
  unfold parseChain
  rw [h1]
  cases ht1 : pyTruthy u1 with
  | true => exact ⟨u1, c1, by simp [ht1]⟩
  | false =>
    simp only [ht1, if_false]
    rw [h2]
    cases ht2 : pyTruthy u2 with
    | true => exact ⟨u2, c2, by simp [ht2]⟩
    | false =>
      simp only [ht2, if_false]
      exact make_alts_total raw hbar

/-- Witness for c1_amended_totality at a concrete one-bar input with failing
structured tiers. -/
theorem c1_amended_witness :
    ∃ u c, parseChain (fun v => v) (fun _ => Except.error PyErr.jsonDecodeError)
      (fun _ => Except.error PyErr.synError) "hello | L1".data = Except.ok (u, c) :=
  c1_amended_totality (fun v => v) (fun _ => Except.error PyErr.jsonDecodeError)
    (fun _ => Except.error PyErr.synError) "hello | L1".data
    (Value.pynone, Value.pydict []) (Value.pynone, Value.pydict []) rfl rfl (by decide)

/-- Counterexample to C3: on the input a#b, which json.loads rejects with
JSONDecodeError and ast.literal_eval rejects with ValueError, the chain
returns the utterance a b, because the source replaces the run of characters
outside [a-zA-Z0-9 ] by a space, while the claim demands ab, with those
characters removed; specNormalizeC3 is the claim read literally. -/
theorem c3_removal_counterexample :
    parseChain (fun v => v) (fun _ => Except.error PyErr.jsonDecodeError)
      (fun _ => Except.error PyErr.valueError) "a#b".data =
      Except.ok (Value.pylist [Value.pystr "a b".data], Value.pynone) ∧
    specNormalizeC3 "a#b".data = "ab".data ∧
    "a b".data ≠ "ab".data := ⟨rfl, rfl, by decide⟩

/-- C3 as amended: for a string with no bar on which both structured tiers
fall through, the chain returns a one-element utterance holding the string
with every maximal run of characters outside [a-zA-Z0-9 ] replaced by one
space, whitespace runs collapsed, the result lowercased and stripped, and the
context None. -/
theorem c3_amended_plain_text (n : Value → Value) (dj dl : List Char → Except PyErr Value)
    (raw : List Char) (u1 c1 u2 c2 : Value)
    (h1 : parse_as n dj raw = Except.ok (u1, c1)) (hf1 : pyTruthy u1 = false)
    (h2 : parse_as n dl raw = Except.ok (u2, c2)) (hf2 : pyTruthy u2 = false)
    (hnb : containsBar raw = false) :
    parseChain n dj dl raw =
      Except.ok (Value.pylist [Value.pystr (pyNormalizeText raw)], Value.pynone) := by
  unfold parseChain
  rw [h1]
  simp only [hf1, if_false]
  rw [h2]
  simp only [hf2, if_false]
  unfold make_alts_from_text
  rw [hnb]
  rfl

/-- Witness for c3_amended_plain_text on a concrete input with punctuation
and mixed case. -/
theorem c3_amended_witness :
    parseChain (fun v => v) (fun _ => Except.error PyErr.jsonDecodeError)
      (fun _ => Except.error PyErr.valueError) "Hello!!  World".data =
      Except.ok (Value.pylist [Value.pystr "hello world".data], Value.pynone) := by
  have h := c3_amended_plain_text (fun v => v)
    (fun _ => Except.error PyErr.jsonDecodeError)
    (fun _ => Except.error PyErr.valueError) "Hello!!  World".data
    Value.pynone (Value.pydict []) Value.pynone (Value.pydict []) rfl rfl rfl rfl rfl
  rw [h]
  rfl

/-- Counterexample to C5: a cancellation signal raised while blocked inside
the pipeline call (the api raises KeyboardInterrupt during Invoking) is
caught by the except clause wrapping the whole while loop and produces the
clean exit, not an unhandled termination, because the try block of repl
encloses the entire loop body and not only the prompt. -/
theorem c5_signal_in_invoking_counterexample :
    repl (fun v => v) (fun _ => Except.error PyErr.jsonDecodeError)
      (fun _ => Except.error PyErr.valueError)
      (fun _ => Except.ok "hi".data)
      (fun _ _ => Except.error PyErr.keyboardInterrupt) 1 =
    ([(Value.pylist [Value.pystr "hi".data], Value.pynone)], ReplOutcome.cleanExit) := rfl

/-- C5 as amended: a cancellation or end-of-input signal observed anywhere
inside the loop body, in particular one raised by the pipeline call while in
the Invoking state, is intercepted by the handlers around the loop and leads
to the clean Exiting outcome. -/
theorem c5_amended_signal_clean_exit (n : Value → Value)
    (dj dl : List Char → Except PyErr Value)
    (prompts : Nat → Except PyErr (List Char))
    (api : Value → Value → Except PyErr Value) (fuel : Nat)
    (raw : List Char) (u c : Value) (e : PyErr)
    (hp : prompts 0 = Except.ok raw) (hH : raw ≠ "--help".data)
    (hchain : parseChain n dj dl raw = Except.ok (u, c))
    (hapi : api u c = Except.error e)
    (he : e = PyErr.keyboardInterrupt ∨ e = PyErr.eofError) :
    (repl n dj dl prompts api (fuel + 1)).2 = ReplOutcome.cleanExit := by
  unfold repl replIter
  simp only [hp, if_neg hH, hchain, hapi]
  rcases he with he | he <;> rw [he]

/-- Witness for c5_amended_signal_clean_exit with an end-of-input signal
raised by the pipeline. -/
theorem c5_amended_witness :
    (repl (fun v => v) (fun _ => Except.error PyErr.jsonDecodeError)
      (fun _ => Except.error PyErr.valueError)
      (fun _ => Except.ok "hey".data)
      (fun _ _ => Except.error PyErr.eofError) 3).2 = ReplOutcome.cleanExit :=
  c5_amended_signal_clean_exit (fun v => v) _ _ _ _ 2 "hey".data
    (Value.pylist [Value.pystr "hey".data]) Value.pynone PyErr.eofError
    rfl (by decide) rfl rfl (Or.inr rfl)

/-- Counterexample to C8: an EOFError raised by the pipeline during Invoking
is caught by the handler around the loop and recovered into the clean exit;
it does not propagate and terminate the process as the claim states for any
exception. -/
theorem c8_pipeline_eof_counterexample :
    repl (fun v => v) (fun _ => Except.error PyErr.jsonDecodeError)
      (fun _ => Except.error PyErr.valueError)
      (fun _ => Except.ok "yo".data)
      (fun _ _ => Except.error PyErr.eofError) 1 =
    ([(Value.pylist [Value.pystr "yo".data], Value.pynone)], ReplOutcome.cleanExit) ∧
    ReplOutcome.cleanExit ≠ ReplOutcome.crashed PyErr.eofError :=
  ⟨rfl, fun h => ReplOutcome.noConfusion h⟩

/-- C8 as amended: any exception raised by the pipeline during Invoking other
than KeyboardInterrupt and EOFError is not caught by the loop and propagates
out of repl, terminating the process rather than being recovered. -/
theorem c8_amended_pipeline_error_propagates (n : Value → Value)
    (dj dl : List Char → Except PyErr Value)
    (prompts : Nat → Except PyErr (List Char))
    (api : Value → Value → Except PyErr Value) (fuel : Nat)
    (raw : List Char) (u c : Value) (e : PyErr)
    (hp : prompts 0 = Except.ok raw) (hH : raw ≠ "--help".data)
    (hchain : parseChain n dj dl raw = Except.ok (u, c))
    (hapi : api u c = Except.error e)
    (hki : e ≠ PyErr.keyboardInterrupt) (heof : e ≠ PyErr.eofError) :
    (repl n dj dl prompts api (fuel + 1)).2 = ReplOutcome.crashed e := by
  unfold repl replIter
  simp only [hp, if_neg hH, hchain, hapi]

/-- Witness for c8_amended_pipeline_error_propagates with a pipeline raising
an arbitrary exception type. -/
theorem c8_amended_witness :
    (repl (fun v => v) (fun _ => Except.error PyErr.jsonDecodeError)
      (fun _ => Except.error PyErr.valueError)
      (fun _ => Except.ok "go".data)
      (fun _ _ => Except.error (PyErr.otherError "boom".data)) 1).2 =
      ReplOutcome.crashed (PyErr.otherError "boom".data) :=
  c8_amended_pipeline_error_propagates (fun v => v) _ _ _ _ 0 "go".data
    (Value.pylist [Value.pystr "go".data]) Value.pynone (PyErr.otherError "boom".data)
    rfl (by decide) rfl rfl (fun h => PyErr.noConfusion h) (fun h => PyErr.noConfusion h)

/-- C9: when the operator answers the re-prompt that follows a first --help
with --help again, the sentinel check is not applied a second time: the
second --help is handed to the fallback chain, which normalizes it to the
one-element utterance help with context None via the plain-text tier, and
this pair is submitted to the prediction pipeline (it appears in the trace of
pipeline invocations). -/
theorem c9_second_help_parsed (n : Value → Value)
    (dj dl : List Char → Except PyErr Value)
    (prompts : Nat → Except PyErr (List Char))
    (api : Value → Value → Except PyErr Value) (resp : Value)
    (hdj : dj "--help".data = Except.error PyErr.jsonDecodeError)
    (hdl : dl "--help".data = Except.error PyErr.valueError)
    (hp0 : prompts 0 = Except.ok "--help".data)
    (hp1 : prompts 1 = Except.ok "--help".data)
    (hapi : api (Value.pylist [Value.pystr "help".data]) Value.pynone = Except.ok resp) :
    (repl n dj dl prompts api 1).1 =
      [(Value.pylist [Value.pystr "help".data], Value.pynone)] := by
  have t1 : parse_as n dj "--help".data = Except.ok (Value.pynone, Value.pydict []) := by
    simp only [parse_as, hdj]
    rfl
  have t2 : parse_as n dl "--help".data = Except.ok (Value.pynone, Value.pydict []) := by
    simp only [parse_as, hdl]
    rfl
  have hchain : parseChain n dj dl "--help".data =
      Except.ok (Value.pylist [Value.pystr "help".data], Value.pynone) := by
    unfold parseChain
    rw [t1]
    simp only [pyTruthy, if_false]
    rw [t2]
    rfl
  unfold repl replIter
  simp only [hp0, if_pos rfl, hp1, hchain, hapi, if_true, replIter]

/-- Witness for c9_second_help_parsed with concrete decoders, prompt stream
and pipeline. -/
theorem c9_second_help_witness :
    (repl (fun v => v) (fun _ => Except.error PyErr.jsonDecodeError)
      (fun _ => Except.error PyErr.valueError)
      (fun _ => Except.ok "--help".data)
      (fun _ _ => Except.ok Value.pynone) 1).1 =
      [(Value.pylist [Value.pystr "help".data], Value.pynone)] :=
  c9_second_help_parsed (fun v => v) _ _ _ _ Value.pynone rfl rfl rfl rfl rfl

/-! Helper lemmas for the idempotence of the plain-text normalization. -/

theorem noAdjSp_tail {a : Char} {l : List Char} (h : noAdjSp (a :: l)) : noAdjSp l := by
  cases l with
  | nil => trivial
  | cons b r => exact h.2

theorem squashAux_mem (p : Char → Bool) :
    ∀ (b : Bool) (l : List Char) (c : Char),
      c ∈ squashAux p b l → c = ' ' ∨ (p c = false ∧ c ∈ l) := by
  intro b l
  induction l generalizing b with
  | nil => intro c h; simp [squashAux] at h
  | cons a cs ih =>
    intro c h
    unfold squashAux at h
    by_cases ha : p a = true
    · simp only [ha, if_true] at h
      cases b with
      | true =>
        rcases ih true c h with h1 | ⟨h1, h2⟩
        · exact Or.inl h1
        · exact Or.inr ⟨h1, List.mem_cons_of_mem a h2⟩
      | false =>
        rcases List.mem_cons.mp h with rfl | h
        · exact Or.inl rfl
        · rcases ih true c h with h1 | ⟨h1, h2⟩
          · exact Or.inl h1
          · exact Or.inr ⟨h1, List.mem_cons_of_mem a h2⟩
    · rw [Bool.not_eq_true] at ha
      simp only [ha, Bool.false_eq_true, if_false] at h
      rcases List.mem_cons.mp h with rfl | h
      · exact Or.inr ⟨ha, List.mem_cons_self _ _⟩
      · rcases ih false c h with h1 | ⟨h1, h2⟩
        · exact Or.inl h1
        · exact Or.inr ⟨h1, List.mem_cons_of_mem a h2⟩

theorem squashAux_head_true (p : Char → Bool) :
    ∀ (l : List Char) (d : Char) (r : List Char),
      squashAux p true l = d :: r → p d = false := by
  intro l
  induction l with
  | nil => intro d r h; simp [squashAux] at h
  | cons c cs ih =>
    intro d r h
    unfold squashAux at h
    by_cases hc : p c = true
    · simp only [hc, if_true] at h
      exact ih d r h
    · rw [Bool.not_eq_true] at hc
      simp only [hc, Bool.false_eq_true, if_false] at h
      injection h with h1 h2
      rw [← h1]
      exact hc

theorem squashAux_noAdjSp (p : Char → Bool) (hsp : p ' ' = true) :
    ∀ (b : Bool) (l : List Char), noAdjSp (squashAux p b l) := by
  intro b l
  induction l generalizing b with
  | nil => simp [squashAux, noAdjSp]
  | cons c cs ih =>
    unfold squashAux
    by_cases hc : p c = true
    · simp only [hc, if_true]
      cases b with
      | true => exact ih true
      | false =>
        simp only [Bool.false_eq_true, if_false]
        cases hX : squashAux p true cs with
        | nil => trivial
        | cons d r =>
          refine ⟨?_, ?_⟩
          · rintro ⟨-, hd⟩
            have := squashAux_head_true p cs d r hX
            rw [hd] at this
            rw [hsp] at this
            exact Bool.noConfusion this
          · rw [← hX]
            exact ih true
    · rw [Bool.not_eq_true] at hc
      simp only [hc, Bool.false_eq_true, if_false]
      cases hX : squashAux p false cs with
      | nil => trivial
      | cons d r =>
        refine ⟨?_, ?_⟩
        · rintro ⟨hcsp, -⟩
          rw [hcsp, hsp] at hc
          exact Bool.noConfusion hc
        · rw [← hX]
          exact ih false

theorem squashAux_id (p : Char → Bool) :
    ∀ (b : Bool) (l : List Char), (∀ c ∈ l, p c = false) → squashAux p b l = l := by
  intro b l
  induction l generalizing b with
  | nil => intro _; rfl
  | cons a cs ih =>
    intro h
    have ha := h a (List.mem_cons_self a cs)
    unfold squashAux
    rw [ha]
    simp only [Bool.false_eq_true, if_false]
    rw [ih false (fun c hc => h c (List.mem_cons_of_mem a hc))]

theorem squashAux_true_head (p : Char → Bool) (l : List Char)
    (h : ∀ d r, l = d :: r → p d = false) :
    squashAux p true l = squashAux p false l := by
  cases l with
  | nil => rfl
  | cons d r =>
    have hd := h d r rfl
    unfold squashAux
    rw [hd]
    rfl

theorem squashAux_fixed (p : Char → Bool) :
    ∀ l : List Char, (∀ c ∈ l, p c = true → c = ' ') → noAdjSp l →
      squashAux p false l = l := by
  intro l
  induction l with
  | nil => intro _ _; rfl
  | cons a cs ih =>
    intro hchars hadj
    unfold squashAux
    by_cases ha : p a = true
    · have haSp : a = ' ' := hchars a (List.mem_cons_self a cs) ha
      simp only [ha, if_true, Bool.false_eq_true, if_false]
      have hhead : ∀ d r, cs = d :: r → p d = false := by
        intro d r hcs
        by_cases hd : p d = true
        · have hdSp : d = ' ' := hchars d (by rw [hcs]; simp) hd
          rw [hcs] at hadj
          rw [haSp, hdSp] at hadj
          exact absurd ⟨rfl, rfl⟩ hadj.1
        · rw [Bool.not_eq_true] at hd
          exact hd
      rw [squashAux_true_head p cs hhead]
      rw [ih (fun c hc hp => hchars c (List.mem_cons_of_mem a hc) hp) (noAdjSp_tail hadj)]
      rw [haSp]
    · rw [Bool.not_eq_true] at ha
      simp only [ha, Bool.false_eq_true, if_false]
      rw [ih (fun c hc hp => hchars c (List.mem_cons_of_mem a hc) hp) (noAdjSp_tail hadj)]

theorem dropWhile_exists_append (p : Char → Bool) (l : List Char) :
    ∃ t, t ++ l.dropWhile p = l := by
  induction l with
  | nil => exact ⟨[], rfl⟩
  | cons a cs ih =>
    by_cases ha : p a = true
    · obtain ⟨t, ht⟩ := ih
      refine ⟨a :: t, ?_⟩
      rw [List.dropWhile_cons, if_pos ha, List.cons_append, ht]
    · refine ⟨[], ?_⟩
      rw [List.dropWhile_cons, if_neg ha, List.nil_append]

theorem dropWhile_head_false (p : Char → Bool) :
    ∀ (l : List Char) (d : Char) (r : List Char),
      l.dropWhile p = d :: r → p d = false := by
  intro l
  induction l with
  | nil => intro d r h; simp at h
  | cons a cs ih =>
    intro d r h
    rw [List.dropWhile_cons] at h
    by_cases ha : p a = true
    · rw [if_pos ha] at h
      exact ih d r h
    · rw [if_neg ha] at h
      injection h with h1 h2
      rw [← h1]
      rw [Bool.not_eq_true] at ha
      exact ha

theorem dropWhile_id (p : Char → Bool) (l : List Char)
    (h : ∀ d r, l = d :: r → p d = false) : l.dropWhile p = l := by
  cases l with
  | nil => rfl
  | cons d r =>
    rw [List.dropWhile_cons, h d r rfl]
    rfl

theorem stripEnd_exists_append (l : List Char) : ∃ t, stripEnd l ++ t = l := by
  obtain ⟨t, ht⟩ := dropWhile_exists_append isPySpace l.reverse
  refine ⟨t.reverse, ?_⟩
  have h2 := congrArg List.reverse ht
  rw [List.reverse_append, List.reverse_reverse] at h2
  exact h2

theorem pyStrip_exists_append (l : List Char) :
    ∃ t1 t2, t1 ++ (pyStrip l ++ t2) = l := by
  obtain ⟨t1, h1⟩ := dropWhile_exists_append isPySpace l
  obtain ⟨t2, h2⟩ := stripEnd_exists_append (l.dropWhile isPySpace)
  refine ⟨t1, t2, ?_⟩
  unfold pyStrip
  rw [h2, h1]

theorem noAdjSp_append_right : ∀ (t s : List Char), noAdjSp (t ++ s) → noAdjSp s := by
  intro t
  induction t with
  | nil => intro s h; exact h
  | cons a t ih =>
    intro s h
    rw [List.cons_append] at h
    exact ih s (noAdjSp_tail h)

theorem noAdjSp_append_left : ∀ (s t : List Char), noAdjSp (s ++ t) → noAdjSp s := by
  intro s
  induction s with
  | nil => intro t _; trivial
  | cons a s ih =>
    intro t h
    rw [List.cons_append] at h
    cases s with
    | nil => trivial
    | cons b s2 =>
      rw [List.cons_append] at h
      exact ⟨h.1, ih t h.2⟩

theorem map_id_of (f : Char → Char) :
    ∀ l : List Char, (∀ c ∈ l, f c = c) → l.map f = l := by
  intro l
  induction l with
  | nil => intro _; rfl
  | cons a cs ih =>
    intro h
    rw [List.map_cons, h a (List.mem_cons_self a cs),
      ih (fun c hc => h c (List.mem_cons_of_mem a hc))]

theorem noAdjSp_map (f : Char → Char) (hf : ∀ c, f c = ' ' → c = ' ') :
    ∀ l : List Char, noAdjSp l → noAdjSp (l.map f) := by
  intro l
  induction l with
  | nil => intro _; trivial
  | cons a cs ih =>
    intro h
    cases cs with
    | nil => trivial
    | cons b cs2 =>
      rw [List.map_cons, List.map_cons]
      refine ⟨?_, ?_⟩
      · rintro ⟨ha, hb⟩
        exact h.1 ⟨hf a ha, hf b hb⟩
      · have := ih h.2
        rw [List.map_cons] at this
        exact this

theorem char_space_toNat : (' ' : Char).toNat = 32 := rfl

theorem kept_space : keptByClassSub ' ' = true := rfl

theorem isPySpace_space : isPySpace ' ' = true := rfl

theorem kept_pyLowerChar_kept (c : Char) (h : keptByClassSub c = true) :
    keptByClassSub (pyLowerChar c) = true := by
  have ht := pyLowerChar_toNat c
  simp only [keptByClassSub, isAsciiAlnum, Bool.or_eq_true, Bool.and_eq_true,
    decide_eq_true_eq] at h ⊢
  by_cases hu : (65 <= c.toNat && c.toNat <= 90) = true
  · rw [if_pos hu] at ht
    simp only [Bool.and_eq_true, decide_eq_true_eq] at hu
    omega
  · rw [if_neg hu] at ht
    simp only [Bool.and_eq_true, decide_eq_true_eq, not_and, not_le] at hu
    omega

theorem kept_pyLowerChar_notUpper (c : Char) :
    ¬(65 <= (pyLowerChar c).toNat ∧ (pyLowerChar c).toNat <= 90) := by
  have ht := pyLowerChar_toNat c
  by_cases hu : (65 <= c.toNat && c.toNat <= 90) = true
  · rw [if_pos hu] at ht
    simp only [Bool.and_eq_true, decide_eq_true_eq] at hu
    omega
  · rw [if_neg hu] at ht
    simp only [Bool.and_eq_true, decide_eq_true_eq, not_and, not_le] at hu
    omega

theorem pyLowerChar_fix (c : Char) (h : ¬(65 <= c.toNat ∧ c.toNat <= 90)) :
    pyLowerChar c = c := by
  unfold pyLowerChar
  rw [if_neg (by simpa using h)]

theorem pyLowerChar_space_inv (c : Char) (h : pyLowerChar c = ' ') : c = ' ' := by
  have ht := pyLowerChar_toNat c
  rw [h, char_space_toNat] at ht
  by_cases hu : (65 <= c.toNat && c.toNat <= 90) = true
  · rw [if_pos hu] at ht
    simp only [Bool.and_eq_true, decide_eq_true_eq] at hu
    omega
  · rw [if_neg hu] at ht
    apply charToNat_inj
    rw [char_space_toNat, ← ht]

theorem kept_pySpace_space (c : Char) (hk : keptByClassSub c = true)
    (hw : isPySpace c = true) : c = ' ' := by
  simp only [keptByClassSub, isAsciiAlnum, isPySpace, Bool.or_eq_true, Bool.and_eq_true,
    decide_eq_true_eq] at hk hw
  apply charToNat_inj
  rw [char_space_toNat]
  omega

/-- C7: the plain-text normalization of make_alts_from_text is idempotent;
the output of one application consists only of lowercase letters, digits and
single interior spaces with no leading or trailing whitespace, and each of
the four stages fixes such a string. -/
theorem c7_normalize_idempotent (l : List Char) :
    pyNormalizeText (pyNormalizeText l) = pyNormalizeText l := by
  unfold pyNormalizeText
  generalize hD :
    pyStrip ((squash isPySpace (squash (fun c => !keptByClassSub c) l)).map pyLowerChar) = D
  have memC : ∀ c ∈ (squash isPySpace (squash (fun c => !keptByClassSub c) l)).map pyLowerChar,
      keptByClassSub c = true ∧ ¬(65 <= c.toNat ∧ c.toNat <= 90) := by
    intro c hc
    rcases List.mem_map.mp hc with ⟨c0, hc0, rfl⟩
    have hk0 : keptByClassSub c0 = true := by
      rcases squashAux_mem isPySpace false _ c0 hc0 with rfl | ⟨-, hmem⟩
      · exact kept_space
      · rcases squashAux_mem (fun c => !keptByClassSub c) false _ c0 hmem with rfl | ⟨hq, -⟩
        · exact kept_space
        · simpa using hq
    exact ⟨kept_pyLowerChar_kept c0 hk0, kept_pyLowerChar_notUpper c0⟩
  have memD : ∀ c ∈ D, keptByClassSub c = true ∧ ¬(65 <= c.toNat ∧ c.toNat <= 90) := by
    intro c hc
    obtain ⟨t1, t2, hsplit⟩ := pyStrip_exists_append
      ((squash isPySpace (squash (fun c => !keptByClassSub c) l)).map pyLowerChar)
    rw [hD] at hsplit
    apply memC
    rw [← hsplit]
    exact List.mem_append.mpr (Or.inr (List.mem_append.mpr (Or.inl hc)))
  have adjC : noAdjSp ((squash isPySpace (squash (fun c => !keptByClassSub c) l)).map pyLowerChar) :=
    noAdjSp_map pyLowerChar pyLowerChar_space_inv _
      (squashAux_noAdjSp isPySpace isPySpace_space false _)
  have adjD : noAdjSp D := by
    obtain ⟨t1, t2, hsplit⟩ := pyStrip_exists_append
      ((squash isPySpace (squash (fun c => !keptByClassSub c) l)).map pyLowerChar)
    rw [hD] at hsplit
    rw [← hsplit] at adjC
    exact noAdjSp_append_left _ _ (noAdjSp_append_right _ _ adjC)
  have stage1 : squash (fun c => !keptByClassSub c) D = D :=
    squashAux_id _ false D (fun c hc => by simp [(memD c hc).1])
  have stage2 : squash isPySpace D = D :=
    squashAux_fixed isPySpace D (fun c hc hw => kept_pySpace_space c (memD c hc).1 hw) adjD
  have stage3 : D.map pyLowerChar = D :=
    map_id_of pyLowerChar D (fun c hc => pyLowerChar_fix c (memD c hc).2)
  have hheadD : ∀ d r, D = d :: r → isPySpace d = false := by
    intro d r hdr
    obtain ⟨t, ht⟩ := stripEnd_exists_append
      (((squash isPySpace (squash (fun c => !keptByClassSub c) l)).map pyLowerChar).dropWhile
        isPySpace)
    rw [show stripEnd (((squash isPySpace (squash (fun c => !keptByClassSub c) l)).map
          pyLowerChar).dropWhile isPySpace) = D from hD] at ht
    rw [hdr] at ht
    rw [List.cons_append] at ht
    exact dropWhile_head_false isPySpace _ d _ ht.symm
  have hrevD : ∀ d r, D.reverse = d :: r → isPySpace d = false := by
    intro d r hdr
    have hDrev : D.reverse =
        (((squash isPySpace (squash (fun c => !keptByClassSub c) l)).map
          pyLowerChar).dropWhile isPySpace).reverse.dropWhile isPySpace := by
      rw [← hD]
      unfold pyStrip stripEnd
      rw [List.reverse_reverse]
    rw [hDrev] at hdr
    exact dropWhile_head_false isPySpace _ d r hdr
  have stage4 : pyStrip D = D := by
    unfold pyStrip stripEnd
    rw [dropWhile_id isPySpace D hheadD]
    rw [dropWhile_id isPySpace D.reverse hrevD, List.reverse_reverse]
  rw [stage1, stage2, stage3, stage4]
